import Mathlib

/-!
Shallow embedding of `src/server.js` (a CRUD user-management HTTP service
with a persistent PostgreSQL backend and an in-memory fallback backend),
together with proofs about the request-handling and storage-consistency
layer: validation, email uniqueness, id assignment, list ordering, update
framing and the health endpoint.

JavaScript strings are modelled as lists of Unicode code points
(`Str := List Nat`); the handful of string operations the server uses
(`trim`, `toLowerCase`, the email regular expression, `parseInt`) are
defined below over that representation, restricted to the ASCII behaviour
exercised by the server.
-/

/-- A JavaScript string, as a list of Unicode code points. -/
abbrev Str := List Nat

/-- Conversion from a Lean string literal to the code-point representation,
used to write concrete inputs. -/
def str (s : String) : Str := s.data.map Char.toNat

/-- Whitespace as matched by the `\s` class of the server's email regular
expression and by `String.prototype.trim`, restricted to the ASCII range
(tab, line feed, vertical tab, form feed, carriage return, space). -/
def isSpace (c : Nat) : Bool := c = 32 || (9 ≤ c && c ≤ 13)

/-- `String.prototype.toLowerCase`, per code point; only the ASCII letters
`A`–`Z` (65–90) are affected, which covers every input the server compares. -/
def lowerChar (c : Nat) : Nat := if 65 ≤ c && c ≤ 90 then c + 32 else c

/-- `email.toLowerCase()` / `name.toLowerCase()` from `src/server.js`. -/
def jsToLower (s : Str) : Str := s.map lowerChar

/-- `String.prototype.trim`: strip leading and trailing whitespace. -/
def jsTrim (s : Str) : Str :=
  ((s.dropWhile isSpace).reverse.dropWhile isSpace).reverse

/-- A character admitted by the `[^\s@]` class of the email regular
expression: anything that is neither whitespace nor `@` (code 64). -/
def atomChar (c : Nat) : Bool := !isSpace c && c ≠ 64

/-- `isValidEmail` from `src/server.js`:
`/^[^\s@]+@[^\s@]+\.[^\s@]+$/.test(email)`.  The string must be a nonempty
run of `[^\s@]` characters, an `@` (64), and a remainder consisting only of
`[^\s@]` characters that contains a dot (46) strictly inside it (so that
nonempty `[^\s@]+` runs stand before and after that dot). -/
def isValidEmail (email : Str) : Bool :=
  match email.dropWhile atomChar with
  | c :: rest =>
      c = 64 && !(email.takeWhile atomChar).isEmpty && rest.all atomChar &&
        ((rest.drop 1).dropLast.contains 46)
  | [] => false

/-- A decimal digit `0`–`9` (codes 48–57). -/
def isDigit (c : Nat) : Bool := 48 ≤ c && c ≤ 57

/-- Accumulate a list of decimal digit code points into a natural number. -/
def digitsToNat (ds : List Nat) : Nat :=
  ds.foldl (fun acc c => acc * 10 + (c - 48)) 0

/-- JavaScript `parseInt` on a string (radix 10, no `0x` handling — the
server never passes hexadecimal input): skip leading whitespace, read an
optional sign, then the maximal run of leading decimal digits; `none`
models the `NaN` result when no digit is found. -/
def parseIntJS (s : Str) : Option Int :=
  let cs := s.dropWhile isSpace
  let signAndRest : Int × List Nat :=
    match cs with
    | 45 :: rest => (-1, rest)
    | 43 :: rest => (1, rest)
    | _ => (1, cs)
  let digits := signAndRest.2.takeWhile isDigit
  if digits.isEmpty then none
  else some (signAndRest.1 * (digitsToNat digits : Int))

/-- The JSON value supplied for `age` in a request body: absent
(`undefined`), JSON `null`, a number (the server only meaningfully handles
integers), or a string. -/
inductive AgeInput where
  | undef : AgeInput
  | null : AgeInput
  | num : Int → AgeInput
  | str : Str → AgeInput
deriving DecidableEq, Repr

/-- JavaScript truthiness of an `age` value: `undefined`, `null`, `0` and
`""` are falsy; every other number or string is truthy. -/
def truthyAge : AgeInput → Bool
  | .undef => false
  | .null => false
  | .num n => n ≠ 0
  | .str s => !s.isEmpty

/-- `parseInt(age)` for a truthy `age` value: a number is stringified and
re-parsed (the identity on integers), a string goes through `parseIntJS`;
`none` models `NaN`. -/
def parseIntAge : AgeInput → Option Int
  | .undef => none
  | .null => none
  | .num n => some n
  | .str s => parseIntJS s

/-- The `age` value held by an in-memory fallback record: `null`, an
integer, or JavaScript `NaN` (which `parseInt` yields on a malformed
string and which serialises to JSON `null`). -/
inductive StoredAge where
  | null : StoredAge
  | int : Int → StoredAge
  | nan : StoredAge
deriving DecidableEq, Repr

/-- `age ? parseInt(age) : null` from the fallback create/update branches
of `src/server.js`. -/
def coerceAge (a : AgeInput) : StoredAge :=
  if truthyAge a then
    match parseIntAge a with
    | some n => .int n
    | none => .nan
  else .null

/-- A value bound to a parameter of a SQL statement by the persistent
branches of `src/server.js`. -/
inductive SqlParam where
  | null : SqlParam
  | int : Int → SqlParam
  | str : Str → SqlParam
deriving DecidableEq, Repr

/-- `age || null` from the persistent create/update branches of
`src/server.js`: a truthy `age` is passed to the database untouched (no
`parseInt`, no nulling), a falsy one becomes SQL `NULL`. -/
def agePersistentParam : AgeInput → SqlParam
  | .undef => .null
  | .null => .null
  | .num n => if n ≠ 0 then .int n else .null
  | .str s => if s.isEmpty then .null else .str s

/-- JavaScript truthiness of the `name` / `email` request-body fields,
modelled as optional strings: absent (`undefined`) and `""` are falsy. -/
def truthy : Option Str → Bool
  | none => false
  | some s => !s.isEmpty

/-- A user record.  In the fallback backend `age` lives as a `StoredAge`
(`null`, integer or `NaN`); the persistent model reuses the same record
shape, where `NaN` never occurs.  `created_at` is a timestamp modelled as
a natural number. -/
structure User where
  id : Nat
  name : Str
  email : Str
  age : StoredAge
  created_at : Nat
deriving DecidableEq, Repr

/-- The in-memory fallback store: `global.users` and `global.nextId` from
`src/server.js` (seeded `[]` and `1` when the database fails to
initialise). -/
structure FallbackState where
  users : List User
  nextId : Nat
deriving DecidableEq, Repr

/-- The fallback store as seeded by `initializeDatabase` on failure:
`global.users = []`, `global.nextId = 1`. -/
def initialState : FallbackState := ⟨[], 1⟩

/-- The outcome of `POST /api/users`: HTTP 400 with a flat error body,
HTTP 201 with the new record, or HTTP 500. -/
inductive CreateResult where
  | badRequest : String → CreateResult
  | created : User → CreateResult
  | serverError : String → CreateResult
deriving DecidableEq, Repr

/-- The HTTP status code of a create outcome. -/
def CreateResult.status : CreateResult → Nat
  | .badRequest _ => 400
  | .created _ => 201
  | .serverError _ => 500

/-- The outcome of `PUT /api/users/:id`. -/
inductive UpdateResult where
  | badRequest : String → UpdateResult
  | notFound : UpdateResult
  | updated : User → UpdateResult
  | serverError : String → UpdateResult
deriving DecidableEq, Repr

/-- The HTTP status code of an update outcome. -/
def UpdateResult.status : UpdateResult → Nat
  | .badRequest _ => 400
  | .notFound => 404
  | .updated _ => 200
  | .serverError _ => 500

/-- The outcome of `DELETE /api/users/:id`. -/
inductive DeleteResult where
  | notFound : DeleteResult
  | deleted : DeleteResult
deriving DecidableEq, Repr

/-- The shared validation prologue of `POST /api/users` and
`PUT /api/users/:id` (the two handlers inline identical code):
`if (!name || !email)` then the 400 "Name and email are required";
`if (!isValidEmail(email))` then the 400 "Invalid email format". -/
def validateBody (name email : Option Str) : Option String :=
  if !truthy name || !truthy email then some "Name and email are required"
  else if !isValidEmail (email.getD []) then some "Invalid email format"
  else none

/-- The fallback branch of `POST /api/users`: validate, reject a duplicate
email case-insensitively, otherwise push
`{id: nextId++, name: name.trim(), email: email.trim().toLowerCase(),
age: age ? parseInt(age) : null, created_at: now}`. -/
def fallbackCreate (st : FallbackState) (name email : Option Str)
    (age : AgeInput) (now : Nat) : CreateResult × FallbackState :=
  match validateBody name email with
  | some msg => (.badRequest msg, st)
  | none =>
    let n := name.getD []
    let e := email.getD []
    if st.users.any (fun u => jsToLower u.email = jsToLower e) then
      (.badRequest "Email already exists", st)
    else
      let u : User :=
        { id := st.nextId, name := jsTrim n, email := jsToLower (jsTrim e)
          age := coerceAge age, created_at := now }
      (.created u, { users := st.users ++ [u], nextId := st.nextId + 1 })

/-- The fallback branch of `PUT /api/users/:id`: validate, 404 when no
record has the id, reject an email that collides case-insensitively with a
different record, otherwise replace `name`, `email` and `age` in place
(the object spread keeps `id` and `created_at`). -/
def fallbackUpdate (st : FallbackState) (userId : Nat)
    (name email : Option Str) (age : AgeInput) :
    UpdateResult × FallbackState :=
  match validateBody name email with
  | some msg => (.badRequest msg, st)
  | none =>
    let n := name.getD []
    let e := email.getD []
    match st.users.findIdx? (fun u => u.id = userId) with
    | none => (.notFound, st)
    | some i =>
      if st.users.any
          (fun u => jsToLower u.email = jsToLower e && u.id ≠ userId) then
        (.badRequest "Email already exists", st)
      else
        match st.users[i]? with
        | none => (.notFound, st)  -- unreachable: findIdx? yields a valid index
        | some u =>
          let u' : User :=
            { u with name := jsTrim n, email := jsToLower (jsTrim e)
                     age := coerceAge age }
          (.updated u', { st with users := st.users.set i u' })

/-- The fallback branch of `DELETE /api/users/:id`: 404 when no record has
the id, otherwise splice the record out. -/
def fallbackDelete (st : FallbackState) (userId : Nat) :
    DeleteResult × FallbackState :=
  match st.users.findIdx? (fun u => u.id = userId) with
  | none => (.notFound, st)
  | some i => (.deleted, { st with users := st.users.eraseIdx i })

/-- Newest-first ordering on records: `a` may stand before `b` when `b` was
not created after `a`.  This is the order induced by the comparator
`(a, b) => new Date(b.created_at) - new Date(a.created_at)`. -/
def createdDesc (a b : User) : Prop := b.created_at ≤ a.created_at

instance : DecidableRel createdDesc := fun a b =>
  inferInstanceAs (Decidable (b.created_at ≤ a.created_at))

instance : IsTotal User createdDesc :=
  ⟨fun a b => (Nat.le_total a.created_at b.created_at).symm⟩

instance : IsTrans User createdDesc :=
  ⟨fun _ _ _ h h' => Nat.le_trans h' h⟩

/-- The fallback branch of `GET /api/users`:
`[...users].sort((a, b) => new Date(b.created_at) - new Date(a.created_at))`,
modelled as a stable sort by descending `created_at`. -/
def fallbackList (st : FallbackState) : List User :=
  st.users.insertionSort createdDesc

/-- An error raised by the modelled relational engine: `uniqueViolation`
is PostgreSQL error code 23505 (the `email UNIQUE` constraint of the
`users` table), `invalidInput` stands for any other engine error, such as
22P02 when a non-numeric string is bound to the `INTEGER` column `age`. -/
inductive DbError where
  | uniqueViolation : DbError
  | invalidInput : DbError
deriving DecidableEq, Repr

/-- The persistent store: the rows of the `users` table and the state of
the `SERIAL` id sequence (next value to assign, starting at 1).  Modelled
from the spec: the table itself is external to `src/server.js`, whose
`initializeDatabase` creates it as
`users(id SERIAL PRIMARY KEY, name, email UNIQUE NOT NULL, age INTEGER,
created_at TIMESTAMP DEFAULT CURRENT_TIMESTAMP)`. -/
structure DbState where
  rows : List User
  serial : Nat
deriving DecidableEq, Repr

/-- Modelled from the spec (persisted layout, §6): binding a value to the
nullable `INTEGER` column `age`.  `NULL` and integers bind as themselves;
a string must parse as an integer, otherwise the statement fails
(PostgreSQL 22P02), which `src/server.js` maps to HTTP 500. -/
def sqlIntValue : SqlParam → Except DbError StoredAge
  | .null => .ok .null
  | .int n => .ok (.int n)
  | .str s =>
    match parseIntJS s with
    | some n =>
      if (s.dropWhile isSpace).all (fun c => isDigit c || c = 43 || c = 45)
      then .ok (.int n) else .error .invalidInput
    | none => .error .invalidInput

/-- Modelled from the spec (persisted layout, §6):
`INSERT INTO users (name, email, age) VALUES ($1, $2, $3) RETURNING *`
against the `users` table.  Parameter binding happens first (a malformed
`age` fails the statement), then the `email UNIQUE` constraint is checked
by exact equality on the stored strings, then the row is appended with the
next serial id and the current timestamp. -/
def dbInsert (db : DbState) (name email : Str) (age : SqlParam)
    (now : Nat) : Except DbError (User × DbState) :=
  match sqlIntValue age with
  | .error e => .error e
  | .ok a =>
    if db.rows.any (fun r => r.email = email) then .error .uniqueViolation
    else
      let u : User :=
        { id := db.serial, name := name, email := email, age := a
          created_at := now }
      .ok (u, { rows := db.rows ++ [u], serial := db.serial + 1 })

/-- The same `INSERT` against a `users` table whose `email UNIQUE`
constraint has been removed.  This definition exists only to settle
whether the application layer itself enforces uniqueness in the persistent
branch: if it did, a duplicate create would still be rejected when the
constraint is absent. -/
def dbInsertNoConstraint (db : DbState) (name email : Str)
    (age : SqlParam) (now : Nat) : Except DbError (User × DbState) :=
  match sqlIntValue age with
  | .error e => .error e
  | .ok a =>
    let u : User :=
      { id := db.serial, name := name, email := email, age := a
        created_at := now }
    .ok (u, { rows := db.rows ++ [u], serial := db.serial + 1 })

/-- The persistent branch of `POST /api/users` in `src/server.js`:
validate, then issue the `INSERT` directly — there is no application-level
duplicate check in this branch.  An engine error with code 23505 is mapped
to the 400 "Email already exists"; any other engine error to the 500
"Failed to create user". -/
def persistentCreate (db : DbState) (name email : Option Str)
    (age : AgeInput) (now : Nat) : CreateResult × DbState :=
  match validateBody name email with
  | some msg => (.badRequest msg, db)
  | none =>
    let n := name.getD []
    let e := email.getD []
    match dbInsert db (jsTrim n) (jsToLower (jsTrim e))
        (agePersistentParam age) now with
    | .ok (u, db') => (.created u, db')
    | .error .uniqueViolation => (.badRequest "Email already exists", db)
    | .error _ => (.serverError "Failed to create user", db)

/-- The persistent create handler wired to the constraint-free table:
identical application code, uniqueness constraint removed. -/
def persistentCreateNoConstraint (db : DbState) (name email : Option Str)
    (age : AgeInput) (now : Nat) : CreateResult × DbState :=
  match validateBody name email with
  | some msg => (.badRequest msg, db)
  | none =>
    let n := name.getD []
    let e := email.getD []
    match dbInsertNoConstraint db (jsTrim n) (jsToLower (jsTrim e))
        (agePersistentParam age) now with
    | .ok (u, db') => (.created u, db')
    | .error .uniqueViolation => (.badRequest "Email already exists", db)
    | .error _ => (.serverError "Failed to create user", db)

/-- Modelled from the spec (persisted layout, §6):
`UPDATE users SET name = $1, email = $2, age = $3 WHERE id = $4
RETURNING *`.  Binding happens first; an update whose new email equals a
different row's email violates the `UNIQUE` constraint; a missing id
matches no row (`.ok none`); otherwise the matched row has its `name`,
`email` and `age` replaced in place. -/
def dbUpdate (db : DbState) (userId : Nat) (name email : Str)
    (age : SqlParam) : Except DbError (Option (User × DbState)) :=
  match sqlIntValue age with
  | .error e => .error e
  | .ok a =>
  match db.rows.findIdx? (fun r => r.id = userId) with
  | none => .ok none
  | some i =>
    if db.rows.any (fun r => r.email = email && r.id ≠ userId) then
      .error .uniqueViolation
    else
      match db.rows[i]? with
      | none => .ok none  -- unreachable: findIdx? yields a valid index
      | some r =>
        let r' : User := { r with name := name, email := email, age := a }
        .ok (some (r', { db with rows := db.rows.set i r' }))

/-- The persistent branch of `PUT /api/users/:id` in `src/server.js`:
validate, issue the `UPDATE` (again with no application-level duplicate
check), 404 when no row was returned, 400 on error code 23505, 500
otherwise. -/
def persistentUpdate (db : DbState) (userId : Nat)
    (name email : Option Str) (age : AgeInput) : UpdateResult × DbState :=
  match validateBody name email with
  | some msg => (.badRequest msg, db)
  | none =>
    let n := name.getD []
    let e := email.getD []
    match dbUpdate db userId (jsTrim n) (jsToLower (jsTrim e))
        (agePersistentParam age) with
    | .ok none => (.notFound, db)
    | .ok (some (u, db')) => (.updated u, db')
    | .error .uniqueViolation => (.badRequest "Email already exists", db)
    | .error _ => (.serverError "Failed to update user", db)

/-- The body of the `GET /api/health` response. -/
structure HealthResponse where
  status : Nat
  success : Bool
  message : String
  database : String
  userCount : Nat
deriving DecidableEq, Repr

/-- `GET /api/health` from `src/server.js`.  `fallbackMode` is
`global.fallbackMode`; `st` the fallback store; `probe` the outcome of
`SELECT COUNT(*) FROM users` (only consulted when not in fallback mode).
Every branch, including the catch-all, answers HTTP 200 with
`success: true`; a failed probe degrades the report to a zero count and
the "Connection Error" database string. -/
def health (fallbackMode : Bool) (st : FallbackState)
    (probe : Except DbError Nat) : HealthResponse :=
  if fallbackMode then
    { status := 200, success := true
      message := "API is running with database"
      database := "In-Memory (Fallback)", userCount := st.users.length }
  else
    match probe with
    | .ok n =>
      { status := 200, success := true
        message := "API is running with database"
        database := "PostgreSQL", userCount := n }
    | .error _ =>
      { status := 200, success := true
        message := "API is running (database connection issue)"
        database := "Connection Error", userCount := 0 }

/-- An operation of a request trace against the fallback backend. -/
inductive Op where
  | create : Option Str → Option Str → AgeInput → Nat → Op
  | delete : Nat → Op
deriving Repr

/-- The state reached by a trace, together with the ids assigned by its
successful creates (in order) and the counts of successful creates and
deletes. -/
structure RunResult where
  state : FallbackState
  log : List Nat
  creates : Nat
  deletes : Nat
deriving Repr

/-- Execute one operation of a trace against the fallback backend. -/
def runOp (r : RunResult) (op : Op) : RunResult :=
  match op with
  | .create name email age now =>
    match fallbackCreate r.state name email age now with
    | (.created u, st') =>
      ⟨st', r.log ++ [u.id], r.creates + 1, r.deletes⟩
    | (_, st') => { r with state := st' }
  | .delete userId =>
    match fallbackDelete r.state userId with
    | (.deleted, st') => ⟨st', r.log, r.creates, r.deletes + 1⟩
    | (_, st') => { r with state := st' }

/-- Execute a trace of operations against the freshly seeded fallback
backend. -/
def run (ops : List Op) : RunResult :=
  ops.foldl runOp ⟨initialState, [], 0, 0⟩

/-! ### Helper lemmas on the string model -/

/-- Lowercasing a code point twice is the same as lowercasing it once. -/
theorem lowerChar_idem (c : Nat) : lowerChar (lowerChar c) = lowerChar c := by
  simp only [lowerChar, Bool.and_eq_true, decide_eq_true_eq]
  split_ifs <;> omega

/-- `toLowerCase` is idempotent. -/
theorem jsToLower_idem (s : Str) : jsToLower (jsToLower s) = jsToLower s := by
  induction s with
  | nil => rfl
  | cons c cs ih => simp [jsToLower, lowerChar_idem] at ih ⊢

/-- A character of a string accepted by the email regular expression is
either a `[^\s@]` character or the `@` itself. -/
theorem mem_of_valid_email {e : Str} (h : isValidEmail e = true) :
    ∀ c ∈ e, atomChar c = true ∨ c = 64 := by
  intro c hc
  unfold isValidEmail at h
  rcases hd : e.dropWhile atomChar with _ | ⟨c₀, rest⟩
  · rw [hd] at h; exact absurd h (by simp)
  · rw [hd] at h
    simp only [Bool.and_eq_true, decide_eq_true_eq, List.all_eq_true] at h
    obtain ⟨⟨⟨hc₀, -⟩, hrest⟩, -⟩ := h
    have hsplit : e.takeWhile atomChar ++ e.dropWhile atomChar = e :=
      List.takeWhile_append_dropWhile atomChar e
    rw [← hsplit] at hc
    rcases List.mem_append.mp hc with hmem | hmem
    · exact Or.inl (List.mem_takeWhile_imp hmem)
    · rw [hd] at hmem
      rcases List.mem_cons.mp hmem with rfl | hmem
      · exact Or.inr hc₀
      · exact Or.inl (hrest c hmem)

/-- No character of a valid email is whitespace. -/
theorem no_space_of_valid_email {e : Str} (h : isValidEmail e = true) :
    ∀ c ∈ e, isSpace c = false := by
  intro c hc
  rcases mem_of_valid_email h c hc with hat | rfl
  · unfold atomChar at hat
    simp only [Bool.and_eq_true, Bool.not_eq_true'] at hat
    exact hat.1
  · decide

/-- `trim` is the identity on strings without whitespace. -/
theorem jsTrim_eq_self {s : Str} (h : ∀ c ∈ s, isSpace c = false) :
    jsTrim s = s := by
  have h₁ : s.dropWhile isSpace = s := by
    rw [List.dropWhile_eq_self_iff]
    intro hl
    simp [h _ (List.getElem_mem hl)]
  have h₂ : s.reverse.dropWhile isSpace = s.reverse := by
    rw [List.dropWhile_eq_self_iff]
    intro hl
    have hm := List.getElem_mem hl
    rw [List.mem_reverse] at hm
    simpa using h _ hm
  unfold jsTrim
  rw [h₁, h₂, List.reverse_reverse]

/-- `trim` is the identity on valid emails (they contain no whitespace). -/
theorem jsTrim_of_valid_email {e : Str} (h : isValidEmail e = true) :
    jsTrim e = e :=
  jsTrim_eq_self (no_space_of_valid_email h)

/-- A valid email is nonempty. -/
theorem ne_nil_of_valid_email {e : Str} (h : isValidEmail e = true) :
    e ≠ [] := by
  intro rfl_e
  subst rfl_e
  exact absurd h (by decide)

/-- The shared validation prologue accepts a nonempty name and a valid
email. -/
theorem validateBody_none {n e : Str} (hn : n ≠ [])
    (hv : isValidEmail e = true) : validateBody (some n) (some e) = none := by
  simp [validateBody, truthy, List.isEmpty_eq_false, hn, hv,
    ne_nil_of_valid_email hv]

/-! ### Inversion lemmas for the fallback handlers -/

/-- A successful fallback create: with a nonempty name, a valid email and
no case-insensitive duplicate, the record
`{id: nextId, name: name.trim(), email: email.trim().toLowerCase(),
age, created_at: now}` is appended and `nextId` bumped. -/
theorem fallbackCreate_ok {st : FallbackState} {n e : Str} {a : AgeInput}
    {t : Nat} (hn : n ≠ []) (hv : isValidEmail e = true)
    (hdup : st.users.any (fun u => jsToLower u.email = jsToLower e) = false) :
    fallbackCreate st (some n) (some e) a t =
      (.created ⟨st.nextId, jsTrim n, jsToLower (jsTrim e), coerceAge a, t⟩,
       ⟨st.users ++ [⟨st.nextId, jsTrim n, jsToLower (jsTrim e), coerceAge a, t⟩],
        st.nextId + 1⟩) := by
  simp [fallbackCreate, validateBody_none hn hv, hdup]

/-- A fallback create whose email collides case-insensitively with a
stored record answers the conflict and leaves the store untouched. -/
theorem fallbackCreate_dup {st : FallbackState} {n e : Str} {a : AgeInput}
    {t : Nat} (hn : n ≠ []) (hv : isValidEmail e = true)
    (hdup : st.users.any (fun u => jsToLower u.email = jsToLower e) = true) :
    fallbackCreate st (some n) (some e) a t =
      (.badRequest "Email already exists", st) := by
  simp [fallbackCreate, validateBody_none hn hv, hdup]

/-- Every fallback create either appends exactly the new record (assigning
id `nextId`), or answers a 400 with the store untouched. -/
theorem fallbackCreate_cases (st : FallbackState) (name email : Option Str)
    (a : AgeInput) (t : Nat) :
    (fallbackCreate st name email a t =
      (.created ⟨st.nextId, jsTrim (name.getD []),
          jsToLower (jsTrim (email.getD [])), coerceAge a, t⟩,
       ⟨st.users ++ [⟨st.nextId, jsTrim (name.getD []),
          jsToLower (jsTrim (email.getD [])), coerceAge a, t⟩],
        st.nextId + 1⟩)) ∨
    (∃ msg, fallbackCreate st name email a t = (.badRequest msg, st)) := by
  unfold fallbackCreate
  split
  · right; exact ⟨_, rfl⟩
  · dsimp only
    split
    · right; exact ⟨_, rfl⟩
    · left; rfl

/-- Every fallback delete either removes exactly the record the id matched,
or answers 404 with the store untouched. -/
theorem fallbackDelete_cases (st : FallbackState) (userId : Nat) :
    (∃ i, st.users.findIdx? (fun u => u.id = userId) = some i ∧
      i < st.users.length ∧
      fallbackDelete st userId =
        (.deleted, ⟨st.users.eraseIdx i, st.nextId⟩)) ∨
    (fallbackDelete st userId = (.notFound, st)) := by
  unfold fallbackDelete
  rcases h : st.users.findIdx? (fun u => u.id = userId) with _ | i
  · right; rw [h]
  · left
    exact ⟨i, h, (List.findIdx?_eq_some_iff_findIdx_eq.mp h).1, by rw [h]⟩

/-! ### Claim theorems -/

/-- C6: the health operation never fails: in every backend state —
fallback mode, a persistent probe that answers, or a persistent probe that
errors — it answers HTTP 200 with `success: true` and a non-negative
(natural-number) `userCount`; on a probe error it degrades to the
"Connection Error" report with `userCount` 0 instead of a server error. -/
theorem health_contract (fb : Bool) (st : FallbackState)
    (probe : Except DbError Nat) (n : Nat) (e : DbError) :
    (health fb st probe).status = 200 ∧
    (health fb st probe).success = true ∧
    (health true st probe).userCount = st.users.length ∧
    (health false st (.ok n)).userCount = n ∧
    (health false st (.error e)).userCount = 0 ∧
    (health false st (.error e)).database = "Connection Error" ∧
    (health false st (.error e)).message =
      "API is running (database connection issue)" := by
  cases fb <;> cases probe <;> simp [health]

/-- C10: a fallback create that fails (missing field, invalid email format
or duplicate email all answer a 400) writes nothing: the user list and the
`nextId` counter are exactly as before. -/
theorem create_failure_frame (st : FallbackState) (name email : Option Str)
    (a : AgeInput) (t : Nat) (msg : String)
    (h : (fallbackCreate st name email a t).1 = .badRequest msg) :
    (fallbackCreate st name email a t).2 = st := by
  rcases fallbackCreate_cases st name email a t with hc | ⟨m, hc⟩
  · rw [hc] at h; cases h
  · rw [hc]

/-- Witness for C10 at a concrete failing create (missing email). -/
theorem create_failure_frame_witness :
    (fallbackCreate initialState (some (str "Jane")) none .undef 0).1 =
      .badRequest "Name and email are required" ∧
    (fallbackCreate initialState (some (str "Jane")) none .undef 0).2 =
      initialState :=
  ⟨by decide, create_failure_frame initialState (some (str "Jane")) none
    .undef 0 "Name and email are required" (by decide)⟩

/-- `trim` of an all-whitespace string is the empty string. -/
theorem jsTrim_all_space {s : Str} (h : ∀ c ∈ s, isSpace c = true) :
    jsTrim s = [] := by
  have h₁ : s.dropWhile isSpace = [] := List.dropWhile_eq_nil_iff.mpr h
  simp [jsTrim, h₁]

/-- A nonempty all-whitespace string fails the email format check. -/
theorem invalid_email_of_all_space {s : Str} (hne : s ≠ [])
    (hsp : ∀ c ∈ s, isSpace c = true) : isValidEmail s = false := by
  rcases s with _ | ⟨c, cs⟩
  · exact absurd rfl hne
  · have hc : isSpace c = true := hsp c (List.mem_cons_self c cs)
    have hat : atomChar c = false := by simp [atomChar, hc]
    have hc64 : c ≠ 64 := by
      intro h
      rw [h] at hc
      exact absurd hc (by decide)
    unfold isValidEmail
    rw [List.dropWhile_cons, if_neg (by simp [hat])]
    simp [hc64]

/-- A missing email fails the shared validation with the required-fields
message, whatever the name. -/
theorem validateBody_no_email (name : Option Str) :
    validateBody name none = some "Name and email are required" := by
  simp [validateBody, truthy]

/-- An empty email fails the shared validation with the required-fields
message, whatever the name. -/
theorem validateBody_empty_email (name : Option Str) :
    validateBody name (some []) = some "Name and email are required" := by
  simp [validateBody, truthy]

/-- A missing name fails the shared validation with the required-fields
message, whatever the email. -/
theorem validateBody_no_name (email : Option Str) :
    validateBody none email = some "Name and email are required" := by
  simp [validateBody, truthy]

/-- An empty name fails the shared validation with the required-fields
message, whatever the email. -/
theorem validateBody_empty_name (email : Option Str) :
    validateBody (some []) email = some "Name and email are required" := by
  simp [validateBody, truthy]

/-- A nonempty name with a nonempty email that fails the format check is
rejected with the invalid-format message. -/
theorem validateBody_invalid {n e : Str} (hn : n ≠ []) (he : e ≠ [])
    (hv : isValidEmail e = false) :
    validateBody (some n) (some e) = some "Invalid email format" := by
  simp [validateBody, truthy, List.isEmpty_eq_false, hn, he, hv]

/-- C2 counterexample: the create validation checks plain JavaScript
falsiness, not post-trim emptiness — a whitespace-only name (`" "`) is
truthy, so `POST` with name `" "` and a valid email is accepted (201) and
a record with the trimmed, empty name is written, instead of the 400 the
claim requires. -/
theorem whitespace_name_accepted :
    fallbackCreate initialState (some (str " ")) (some (str "a@b.c"))
        .undef 0 =
      (.created ⟨1, [], str "a@b.c", .null, 0⟩,
       ⟨[⟨1, [], str "a@b.c", .null, 0⟩], 2⟩) ∧
    (fallbackCreate initialState (some (str " ")) (some (str "a@b.c"))
        .undef 0).1.status = 201 := by
  constructor <;> decide

/-- C2 amended: a missing or empty (as supplied, without trimming) name or
email is rejected with the 400 "Name and email are required" and nothing
is written, in both backends and on both create and update; a
whitespace-only email then fails the format check (400, nothing written);
but a whitespace-only name passes validation and the record is stored with
the trimmed (empty) name. -/
theorem required_fields_validation (st : FallbackState) (db : DbState)
    (name email : Option Str) (n e s : Str) (a : AgeInput) (t uid : Nat) :
    (fallbackCreate st none email a t =
      (.badRequest "Name and email are required", st)) ∧
    (fallbackCreate st (some []) email a t =
      (.badRequest "Name and email are required", st)) ∧
    (fallbackCreate st name none a t =
      (.badRequest "Name and email are required", st)) ∧
    (fallbackCreate st name (some []) a t =
      (.badRequest "Name and email are required", st)) ∧
    (fallbackUpdate st uid none email a =
      (.badRequest "Name and email are required", st)) ∧
    (fallbackUpdate st uid name none a =
      (.badRequest "Name and email are required", st)) ∧
    (persistentCreate db none email a t =
      (.badRequest "Name and email are required", db)) ∧
    (persistentUpdate db uid name none a =
      (.badRequest "Name and email are required", db)) ∧
    (n ≠ [] → s ≠ [] → (∀ c ∈ s, isSpace c = true) →
      fallbackCreate st (some n) (some s) a t =
        (.badRequest "Invalid email format", st)) ∧
    (s ≠ [] → (∀ c ∈ s, isSpace c = true) → isValidEmail e = true →
      st.users.any (fun u => jsToLower u.email = jsToLower e) = false →
      fallbackCreate st (some s) (some e) a t =
        (.created ⟨st.nextId, [], jsToLower (jsTrim e), coerceAge a, t⟩,
         ⟨st.users ++
            [⟨st.nextId, [], jsToLower (jsTrim e), coerceAge a, t⟩],
          st.nextId + 1⟩)) := by
  refine ⟨?_, ?_, ?_, ?_, ?_, ?_, ?_, ?_, ?_, ?_⟩
  · simp [fallbackCreate, validateBody_no_name]
  · simp [fallbackCreate, validateBody_empty_name]
  · simp [fallbackCreate, validateBody_no_email]
  · simp [fallbackCreate, validateBody_empty_email]
  · simp [fallbackUpdate, validateBody_no_name]
  · simp [fallbackUpdate, validateBody_no_email]
  · simp [persistentCreate, validateBody_no_name]
  · simp [persistentUpdate, validateBody_no_email]
  · intro hn hs hsp
    simp [fallbackCreate,
      validateBody_invalid hn hs (invalid_email_of_all_space hs hsp)]
  · intro hs hsp hv hdup
    rw [fallbackCreate_ok hs hv hdup, jsTrim_all_space hsp]

/-- Witness for C2 amended at concrete inputs: a missing email is
rejected, and a whitespace-only name with a fresh valid email is
accepted with the empty stored name. -/
theorem required_fields_validation_witness :
    (fallbackCreate initialState (some (str "Jane")) (some []) .undef 0 =
      (.badRequest "Name and email are required", initialState)) ∧
    (fallbackCreate initialState (some (str "  ")) (some (str "a@b.c"))
        .undef 0 =
      (.created ⟨1, [], str "a@b.c", .null, 0⟩,
       ⟨[⟨1, [], str "a@b.c", .null, 0⟩], 2⟩)) := by
  obtain ⟨-, -, -, h4, -, -, -, -, -, h10⟩ :=
    required_fields_validation initialState ⟨[], 1⟩ (some (str "Jane"))
      (some (str "a@b.c")) (str "Jane") (str "a@b.c") (str "  ") .undef 0 1
  exact ⟨h4, by
    have := h10 (by decide) (by decide) (by decide) (by decide)
    simpa using this⟩

/-- C7 counterexample: the persistent create branch performs no age
coercion at all — `age || null` hands the raw value to the database, so an
integer-like string age `"25"` is bound as the string `"25"`, not coerced
to an integer, and a malformed truthy age is bound raw rather than stored
as null; in the fallback branch a malformed truthy age `"abc"` is accepted
and stored as `NaN`, not as null. -/
theorem age_not_coerced_counterexample :
    agePersistentParam (.str (str "25")) = .str (str "25") ∧
    agePersistentParam (.str (str "abc")) = .str (str "abc") ∧
    (fallbackCreate initialState (some (str "Ann")) (some (str "a@b.c"))
        (.str (str "abc")) 0).1 =
      .created ⟨1, str "Ann", str "a@b.c", .nan, 0⟩ := by
  refine ⟨by decide, by decide, by decide⟩

/-- C7 amended: no age value ever causes a validation failure; in the
fallback backend a falsy age (absent, JSON null, `0`, `""`) is stored as
null, an integer-like truthy age is coerced with `parseInt`, and a
malformed truthy age is stored as `NaN` (which serialises to JSON null),
while in the persistent backend the application performs no coercion:
`age || null` binds the raw value (or SQL NULL when falsy) and leaves any
conversion to the database. -/
theorem age_handling (st : FallbackState) (n e : Str) (a : AgeInput)
    (t : Nat) (hn : n ≠ []) (hv : isValidEmail e = true)
    (hdup : st.users.any (fun u => jsToLower u.email = jsToLower e) = false) :
    ((fallbackCreate st (some n) (some e) a t).1 =
      .created ⟨st.nextId, jsTrim n, jsToLower (jsTrim e), coerceAge a, t⟩) ∧
    (coerceAge .undef = .null ∧ coerceAge .null = .null ∧
     coerceAge (.num 0) = .null ∧ coerceAge (.str []) = .null) ∧
    (coerceAge (.str (str "25")) = .int 25 ∧
     coerceAge (.num 25) = .int 25) ∧
    (coerceAge (.str (str "abc")) = .nan) ∧
    (agePersistentParam (.str (str "25")) = .str (str "25") ∧
     agePersistentParam (.str (str "abc")) = .str (str "abc") ∧
     agePersistentParam .undef = .null ∧
     agePersistentParam (.num 0) = .null) := by
  refine ⟨?_, by decide, by decide, by decide, by decide⟩
  rw [fallbackCreate_ok hn hv hdup]

/-- Witness for C7 amended: a create carrying the malformed age `"abc"`
still succeeds. -/
theorem age_handling_witness :
    (fallbackCreate initialState (some (str "Ann")) (some (str "a@b.c"))
        (.str (str "abc")) 0).1 =
      .created ⟨1, str "Ann", str "a@b.c", .nan, 0⟩ := by
  have h := (age_handling initialState (str "Ann") (str "a@b.c")
    (.str (str "abc")) 0 (by decide) (by decide) (by decide)).1
  simpa using h

/-- C1 counterexample: the persistent create branch performs no
application-level uniqueness check — run against the same table with the
uniqueness constraint removed, a create whose email duplicates a stored
row (even letter-for-letter) succeeds and stores a second row with the
same email.  The table constraint is therefore the sole enforcement in
the relational backend, not a backstop to an application-level check. -/
theorem no_app_uniqueness_check_persistent :
    (persistentCreateNoConstraint
        ⟨[⟨1, str "Ann", str "ann@ex.com", .null, 0⟩], 2⟩
        (some (str "Bob")) (some (str "ann@ex.com")) .undef 1).1.status =
      201 ∧
    ((persistentCreateNoConstraint
        ⟨[⟨1, str "Ann", str "ann@ex.com", .null, 0⟩], 2⟩
        (some (str "Bob")) (some (str "ann@ex.com")) .undef 1).2.rows.countP
      (fun r => r.email = str "ann@ex.com")) = 2 := by
  constructor <;> decide

/-- C1 amended: the application-level pre-write uniqueness check exists
only in the fallback backend, where a case-insensitive duplicate is
rejected before any write on both create and update; in the persistent
backend the handler issues the statement directly and only maps the
uniqueness-constraint violation (PostgreSQL 23505) to the conflict
response — with the constraint removed, the identical handler stores the
duplicate, so the constraint is the sole enforcement there. -/
theorem email_uniqueness_enforcement (st : FallbackState) (db : DbState)
    (n e : Str) (a : AgeInput) (t uid : Nat)
    (hn : n ≠ []) (hv : isValidEmail e = true) :
    (st.users.any (fun u => jsToLower u.email = jsToLower e) = true →
      fallbackCreate st (some n) (some e) a t =
        (.badRequest "Email already exists", st)) ∧
    ((st.users.findIdx? (fun u => u.id = uid)).isSome →
      st.users.any
          (fun u => jsToLower u.email = jsToLower e && u.id ≠ uid) = true →
      fallbackUpdate st uid (some n) (some e) a =
        (.badRequest "Email already exists", st)) ∧
    (∀ v, sqlIntValue (agePersistentParam a) = .ok v →
      db.rows.any (fun r => r.email = jsToLower (jsTrim e)) = true →
      persistentCreate db (some n) (some e) a t =
        (.badRequest "Email already exists", db)) ∧
    (∀ v, sqlIntValue (agePersistentParam a) = .ok v →
      persistentCreateNoConstraint db (some n) (some e) a t =
        (.created ⟨db.serial, jsTrim n, jsToLower (jsTrim e), v, t⟩,
         ⟨db.rows ++ [⟨db.serial, jsTrim n, jsToLower (jsTrim e), v, t⟩],
          db.serial + 1⟩)) := by
  refine ⟨fun hdup => fallbackCreate_dup hn hv hdup, ?_, ?_, ?_⟩
  · intro hfound hdup
    unfold fallbackUpdate
    rw [validateBody_none hn hv]
    rcases hidx : st.users.findIdx? (fun u => u.id = uid) with _ | i
    · rw [hidx] at hfound; cases hfound
    · rw [hidx]
      simp only [Option.getD_some, hdup, if_true]
  · intro v hbind hdup
    unfold persistentCreate dbInsert
    rw [validateBody_none hn hv]
    simp only [Option.getD_some, hbind, hdup, if_true]
  · intro v hbind
    unfold persistentCreateNoConstraint dbInsertNoConstraint
    rw [validateBody_none hn hv]
    simp only [Option.getD_some, hbind]

/-- Witness for C1 amended at concrete stores: creating `ANN@ex.com` over
stored `ann@ex.com` is rejected by the fallback pre-check and by the
persistent constraint mapping, updating Bob to Ann's email is rejected by
the fallback pre-check, and the constraint-free persistent handler stores
the duplicate. -/
theorem email_uniqueness_enforcement_witness :
    (fallbackCreate
        ⟨[⟨1, str "Ann", str "ann@ex.com", .null, 0⟩,
          ⟨2, str "Bob", str "bob@ex.com", .null, 0⟩], 3⟩
        (some (str "Bob")) (some (str "ANN@ex.com")) .undef 1 =
      (.badRequest "Email already exists",
       ⟨[⟨1, str "Ann", str "ann@ex.com", .null, 0⟩,
         ⟨2, str "Bob", str "bob@ex.com", .null, 0⟩], 3⟩)) ∧
    (fallbackUpdate
        ⟨[⟨1, str "Ann", str "ann@ex.com", .null, 0⟩,
          ⟨2, str "Bob", str "bob@ex.com", .null, 0⟩], 3⟩ 2
        (some (str "Bob")) (some (str "ANN@ex.com")) .undef =
      (.badRequest "Email already exists",
       ⟨[⟨1, str "Ann", str "ann@ex.com", .null, 0⟩,
         ⟨2, str "Bob", str "bob@ex.com", .null, 0⟩], 3⟩)) ∧
    (persistentCreate ⟨[⟨1, str "Ann", str "ann@ex.com", .null, 0⟩], 2⟩
        (some (str "Bob")) (some (str "ANN@ex.com")) .undef 1 =
      (.badRequest "Email already exists",
       ⟨[⟨1, str "Ann", str "ann@ex.com", .null, 0⟩], 2⟩)) ∧
    (persistentCreateNoConstraint
        ⟨[⟨1, str "Ann", str "ann@ex.com", .null, 0⟩], 2⟩
        (some (str "Bob")) (some (str "ANN@ex.com")) .undef 1 =
      (.created ⟨2, str "Bob", str "ann@ex.com", .null, 1⟩,
       ⟨[⟨1, str "Ann", str "ann@ex.com", .null, 0⟩,
         ⟨2, str "Bob", str "ann@ex.com", .null, 1⟩], 3⟩)) := by
  obtain ⟨h1, h2, h3, h4⟩ :=
    email_uniqueness_enforcement
      ⟨[⟨1, str "Ann", str "ann@ex.com", .null, 0⟩,
        ⟨2, str "Bob", str "bob@ex.com", .null, 0⟩], 3⟩
      ⟨[⟨1, str "Ann", str "ann@ex.com", .null, 0⟩], 2⟩
      (str "Bob") (str "ANN@ex.com") .undef 1 2 (by decide) (by decide)
  refine ⟨h1 (by decide), h2 (by decide) (by decide),
    h3 .null (by rfl) (by decide), ?_⟩
  have h := h4 .null (by rfl)
  simpa using h

/-- Inversion of a successful modelled `INSERT`: the parameters bound, no
stored row shared the email, and the new row (with the next serial id and
the given timestamp) was appended. -/
theorem dbInsert_ok_inv {db : DbState} {name email : Str} {age : SqlParam}
    {t : Nat} {u : User} {db' : DbState}
    (h : dbInsert db name email age t = .ok (u, db')) :
    (∃ v, sqlIntValue age = .ok v) ∧
    db.rows.any (fun r => r.email = email) = false ∧
    u.email = email ∧ u.id = db.serial ∧
    db'.rows = db.rows ++ [u] ∧ db'.serial = db.serial + 1 := by
  unfold dbInsert at h
  rcases hsv : sqlIntValue age with e | v <;> rw [hsv] at h
  · cases h
  · rcases hdup : db.rows.any (fun r => r.email = email) <;> rw [hdup] at h <;>
      simp at h
    obtain ⟨hu, hdb⟩ := h
    subst hu
    subst hdb
    exact ⟨⟨v, rfl⟩, rfl, rfl, rfl, rfl, rfl⟩

/-- A modelled `INSERT` whose email equals a stored row's email (and whose
parameters bind) raises the uniqueness violation, error code 23505. -/
theorem dbInsert_dup {db : DbState} {name email : Str} {age : SqlParam}
    {t : Nat} {v : StoredAge} (hsv : sqlIntValue age = .ok v)
    (hdup : db.rows.any (fun r => r.email = email) = true) :
    dbInsert db name email age t = .error .uniqueViolation := by
  unfold dbInsert
  rw [hsv]
  simp [hdup]

/-- The lowered stored email of a created record equals the lowered form
of any email that differs from the request's email only in case. -/
theorem stored_email_lowered {e₁ e₂ : Str} (hv₁ : isValidEmail e₁ = true)
    (hcase : jsToLower e₁ = jsToLower e₂) :
    jsToLower (jsToLower (jsTrim e₁)) = jsToLower e₂ := by
  rw [jsTrim_of_valid_email hv₁, jsToLower_idem, hcase]

/-- C4: two creates whose valid emails differ only in letter case: after
the first succeeds, the second fails with the 400 "Email already exists"
and stores no second record (the store is exactly the post-first-create
store), in the fallback backend and in the persistent backend alike. -/
theorem duplicate_case_insensitive_create (st : FallbackState)
    (db : DbState) (n₁ n₂ e₁ e₂ : Str) (a₁ a₂ : AgeInput) (t₁ t₂ : Nat)
    (hcase : jsToLower e₁ = jsToLower e₂)
    (hv₁ : isValidEmail e₁ = true) (hv₂ : isValidEmail e₂ = true)
    (hn₂ : n₂ ≠ []) :
    (∀ u st₁,
      fallbackCreate st (some n₁) (some e₁) a₁ t₁ = (.created u, st₁) →
      fallbackCreate st₁ (some n₂) (some e₂) a₂ t₂ =
        (.badRequest "Email already exists", st₁)) ∧
    (∀ u₂ db₁ v,
      persistentCreate db (some n₁) (some e₁) a₁ t₁ = (.created u₂, db₁) →
      sqlIntValue (agePersistentParam a₂) = .ok v →
      persistentCreate db₁ (some n₂) (some e₂) a₂ t₂ =
        (.badRequest "Email already exists", db₁)) := by
  constructor
  · intro u st₁ h
    rcases fallbackCreate_cases st (some n₁) (some e₁) a₁ t₁ with hc | ⟨m, hc⟩
    · rw [h] at hc
      obtain ⟨hu, hst⟩ := Prod.mk.injEq .. ▸ hc
      injection hu with hu
      apply fallbackCreate_dup hn₂ hv₂
      rw [hst]
      simp only [List.any_append, Bool.or_eq_true, List.any_eq_true]
      right
      refine ⟨_, List.mem_singleton.mpr rfl, ?_⟩
      simp only [decide_eq_true_eq, Option.getD_some]
      exact stored_email_lowered hv₁ hcase
    · rw [h] at hc
      cases hc
  · intro u₂ db₁ v h hsv₂
    have hval : validateBody (some n₁) (some e₁) = none := by
      unfold persistentCreate at h
      rcases hvb : validateBody (some n₁) (some e₁) with _ | m
      · rfl
      · rw [hvb] at h; cases h
    unfold persistentCreate at h
    rw [hval] at h
    simp only [Option.getD_some] at h
    rcases hins : dbInsert db (jsTrim n₁) (jsToLower (jsTrim e₁))
        (agePersistentParam a₁) t₁ with e | ⟨u', db'⟩ <;> rw [hins] at h
    · rcases e <;> cases h
    · obtain ⟨hu, hdb⟩ : u' = u₂ ∧ db' = db₁ := by
        injection h with h1 h2
        injection h1 with h1
        exact ⟨h1, h2⟩
      subst hu
      subst hdb
      obtain ⟨-, -, hmail, -, hrows, -⟩ := dbInsert_ok_inv hins
      have hdup2 : db'.rows.any
          (fun r => r.email = jsToLower (jsTrim e₂)) = true := by
        rw [hrows]
        simp only [List.any_append, Bool.or_eq_true, List.any_eq_true]
        right
        refine ⟨u', List.mem_singleton.mpr rfl, ?_⟩
        simp only [decide_eq_true_eq, hmail]
        rw [jsTrim_of_valid_email hv₁, jsTrim_of_valid_email hv₂, hcase]
      unfold persistentCreate
      rw [validateBody_none hn₂ hv₂]
      simp only [Option.getD_some, dbInsert_dup hsv₂ hdup2]

/-- Witness for C4: after creating `jane@ex.com`, creating `JANE@ex.com`
is rejected with the conflict and the store keeps a single record, in both
backends. -/
theorem duplicate_case_insensitive_create_witness :
    (fallbackCreate ⟨[⟨1, str "Jane", str "jane@ex.com", .null, 0⟩], 2⟩
        (some (str "Janet")) (some (str "JANE@ex.com")) .undef 1 =
      (.badRequest "Email already exists",
       ⟨[⟨1, str "Jane", str "jane@ex.com", .null, 0⟩], 2⟩)) ∧
    (persistentCreate ⟨[⟨1, str "Jane", str "jane@ex.com", .null, 0⟩], 2⟩
        (some (str "Janet")) (some (str "JANE@ex.com")) .undef 1 =
      (.badRequest "Email already exists",
       ⟨[⟨1, str "Jane", str "jane@ex.com", .null, 0⟩], 2⟩)) := by
  obtain ⟨h1, h2⟩ :=
    duplicate_case_insensitive_create initialState ⟨[], 1⟩
      (str "Jane") (str "Janet") (str "jane@ex.com") (str "JANE@ex.com")
      .undef .undef 0 1 (by decide) (by decide) (by decide) (by decide)
  exact ⟨h1 ⟨1, str "Jane", str "jane@ex.com", .null, 0⟩
      ⟨[⟨1, str "Jane", str "jane@ex.com", .null, 0⟩], 2⟩ (by decide),
    h2 ⟨1, str "Jane", str "jane@ex.com", .null, 0⟩
      ⟨[⟨1, str "Jane", str "jane@ex.com", .null, 0⟩], 2⟩ .null
      (by decide) (by rfl)⟩

/-- A fallback update on an existing record whose new email collides
case-insensitively with a different record answers the conflict and
leaves the store untouched. -/
theorem fallbackUpdate_dup {st : FallbackState} {uid : Nat} {n e : Str}
    {a : AgeInput} (hn : n ≠ []) (hv : isValidEmail e = true)
    (hfound : (st.users.findIdx? (fun u => u.id = uid)).isSome)
    (hdup : st.users.any
      (fun u => jsToLower u.email = jsToLower e && u.id ≠ uid) = true) :
    fallbackUpdate st uid (some n) (some e) a =
      (.badRequest "Email already exists", st) := by
  unfold fallbackUpdate
  rw [validateBody_none hn hv]
  rcases hidx : st.users.findIdx? (fun u => u.id = uid) with _ | i
  · rw [hidx] at hfound; cases hfound
  · rw [hidx]
    simp only [Option.getD_some, hdup, if_true]

/-- C5: updating an existing fallback record to an email that collides
case-insensitively with a different record is rejected with the conflict
and the store is unchanged; updating a record to its own current email
(when no other record shares it) succeeds with HTTP 200. -/
theorem update_email_conflict_and_own (st : FallbackState) (uid : Nat)
    (n e : Str) (a : AgeInput) (hn : n ≠ []) :
    (isValidEmail e = true →
      (st.users.findIdx? (fun u => u.id = uid)).isSome →
      st.users.any
          (fun u => jsToLower u.email = jsToLower e && u.id ≠ uid) = true →
      fallbackUpdate st uid (some n) (some e) a =
        (.badRequest "Email already exists", st)) ∧
    (∀ i u, st.users.findIdx? (fun v => v.id = uid) = some i →
      st.users[i]? = some u →
      isValidEmail u.email = true →
      (∀ v ∈ st.users, v.id ≠ uid → jsToLower v.email ≠ jsToLower u.email) →
      (fallbackUpdate st uid (some n) (some u.email) a).1.status = 200) := by
  constructor
  · intro hv hfound hdup
    exact fallbackUpdate_dup hn hv hfound hdup
  · intro i u hidx hget hv hnodup
    have hdup : st.users.any
        (fun v => jsToLower v.email = jsToLower u.email && v.id ≠ uid) =
          false := by
      rw [List.any_eq_false]
      intro v hmem
      simp only [Bool.and_eq_true, decide_eq_true_eq, not_and]
      intro heq hne
      exact absurd heq (hnodup v hmem hne)
    unfold fallbackUpdate
    rw [validateBody_none hn hv, hidx]
    simp only [Option.getD_some, hdup, Bool.false_eq_true, if_false, hget]
    rfl

/-- Witness for C5 at a concrete two-record store: updating Bob to Ann's
email (different case) is rejected; updating Bob to his own email
succeeds. -/
theorem update_email_conflict_and_own_witness :
    (fallbackUpdate
        ⟨[⟨1, str "Ann", str "ann@ex.com", .null, 0⟩,
          ⟨2, str "Bob", str "bob@ex.com", .null, 0⟩], 3⟩ 2
        (some (str "Bob")) (some (str "Ann@Ex.com")) .undef =
      (.badRequest "Email already exists",
       ⟨[⟨1, str "Ann", str "ann@ex.com", .null, 0⟩,
         ⟨2, str "Bob", str "bob@ex.com", .null, 0⟩], 3⟩)) ∧
    (fallbackUpdate
        ⟨[⟨1, str "Ann", str "ann@ex.com", .null, 0⟩,
          ⟨2, str "Bob", str "bob@ex.com", .null, 0⟩], 3⟩ 2
        (some (str "Bob")) (some (str "bob@ex.com")) .undef).1.status =
      200 := by
  obtain ⟨h1, h2⟩ :=
    update_email_conflict_and_own
      ⟨[⟨1, str "Ann", str "ann@ex.com", .null, 0⟩,
        ⟨2, str "Bob", str "bob@ex.com", .null, 0⟩], 3⟩ 2
      (str "Bob") (str "Ann@Ex.com") .undef (by decide)
  refine ⟨h1 (by decide) (by decide) (by decide), ?_⟩
  have h := h2 1 ⟨2, str "Bob", str "bob@ex.com", .null, 0⟩
    (by decide) (by decide) (by decide) (by decide)
  simpa using h

/-- C9: a successful update replaces only the target record's `name`,
`email` and `age`; its `id` and `created_at` are kept, the record stays at
its index, every other record is untouched and the id counter / serial is
unchanged — in the fallback backend and in the persistent backend. -/
theorem update_frame (st : FallbackState) (db : DbState) (uid : Nat)
    (name email : Option Str) (a : AgeInput) :
    (∀ u' st', fallbackUpdate st uid name email a = (.updated u', st') →
      st'.nextId = st.nextId ∧
      ∃ i u, st.users.findIdx? (fun v => v.id = uid) = some i ∧
        st.users[i]? = some u ∧
        st'.users = st.users.set i u' ∧
        u'.id = u.id ∧ u'.created_at = u.created_at ∧
        u'.name = jsTrim (name.getD []) ∧
        u'.email = jsToLower (jsTrim (email.getD [])) ∧
        u'.age = coerceAge a ∧
        (∀ j, j ≠ i → st'.users[j]? = st.users[j]?)) ∧
    (∀ u' db', persistentUpdate db uid name email a = (.updated u', db') →
      db'.serial = db.serial ∧
      ∃ i r, db.rows.findIdx? (fun v => v.id = uid) = some i ∧
        db.rows[i]? = some r ∧
        db'.rows = db.rows.set i u' ∧
        u'.id = r.id ∧ u'.created_at = r.created_at ∧
        u'.name = jsTrim (name.getD []) ∧
        u'.email = jsToLower (jsTrim (email.getD [])) ∧
        (∀ j, j ≠ i → db'.rows[j]? = db.rows[j]?)) := by
  constructor
  · intro u' st' h
    unfold fallbackUpdate at h
    rcases hvb : validateBody name email with _ | msg <;> rw [hvb] at h
    · dsimp only at h
      rcases hidx : st.users.findIdx? (fun v => v.id = uid) with _ | i <;>
        rw [hidx] at h
      · cases h
      · dsimp only at h
        rcases hdup : st.users.any (fun v =>
            jsToLower v.email = jsToLower (email.getD []) && v.id ≠ uid) <;>
          rw [hdup] at h <;>
          simp only [Bool.false_eq_true, if_false,
            if_true] at h
        · rcases hget : st.users[i]? with _ | u <;> rw [hget] at h
          · cases h
          · dsimp only at h
            simp only [Prod.mk.injEq, UpdateResult.updated.injEq] at h
            obtain ⟨hu, hst⟩ := h
            subst hu
            subst hst
            refine ⟨rfl, i, u, hidx, hget, rfl, rfl, rfl, rfl, rfl, rfl,
              fun j hj => ?_⟩
            exact List.getElem?_set_ne (Ne.symm hj)
        · cases h
    · cases h
  · intro u' db' h
    unfold persistentUpdate at h
    rcases hvb : validateBody name email with _ | msg <;> rw [hvb] at h
    · dsimp only at h
      unfold dbUpdate at h
      rcases hsv : sqlIntValue (agePersistentParam a) with e | v <;>
        rw [hsv] at h
      · rcases e <;> cases h
      · dsimp only at h
        rcases hidx : db.rows.findIdx? (fun v => v.id = uid) with _ | i <;>
          rw [hidx] at h
        · cases h
        · dsimp only at h
          rcases hdup : db.rows.any (fun r =>
              r.email = jsToLower (jsTrim (email.getD [])) && r.id ≠ uid) <;>
            rw [hdup] at h <;>
            simp only [Bool.false_eq_true, if_false,
              if_true] at h
          · rcases hget : db.rows[i]? with _ | r <;> rw [hget] at h
            · cases h
            · dsimp only at h
              simp only [Prod.mk.injEq, UpdateResult.updated.injEq] at h
              obtain ⟨hu, hdb⟩ := h
              subst hu
              subst hdb
              refine ⟨rfl, i, r, hidx, hget, rfl, rfl, rfl, rfl, rfl,
                fun j hj => ?_⟩
              exact List.getElem?_set_ne (Ne.symm hj)
          · cases h
    · cases h

/-- Witness for C9 at a concrete two-record store: a successful update of
record 2 keeps the fallback `nextId` and the persistent serial at 3. -/
theorem update_frame_witness :
    ((fallbackUpdate ⟨[⟨1, str "Ann", str "ann@ex.com", .null, 0⟩,
        ⟨2, str "Bob", str "bob@ex.com", .null, 7⟩], 3⟩ 2
        (some (str "Rob")) (some (str "rob@ex.com")) (.num 30)).2.nextId =
      3) ∧
    ((persistentUpdate ⟨[⟨1, str "Ann", str "ann@ex.com", .null, 0⟩,
        ⟨2, str "Bob", str "bob@ex.com", .null, 7⟩], 3⟩ 2
        (some (str "Rob")) (some (str "rob@ex.com")) (.num 30)).2.serial =
      3) := by
  obtain ⟨hfb, hpd⟩ := update_frame
    ⟨[⟨1, str "Ann", str "ann@ex.com", .null, 0⟩,
      ⟨2, str "Bob", str "bob@ex.com", .null, 7⟩], 3⟩
    ⟨[⟨1, str "Ann", str "ann@ex.com", .null, 0⟩,
      ⟨2, str "Bob", str "bob@ex.com", .null, 7⟩], 3⟩ 2
    (some (str "Rob")) (some (str "rob@ex.com")) (.num 30)
  obtain ⟨hnext, -⟩ :=
    hfb ⟨2, str "Rob", str "rob@ex.com", .int 30, 7⟩
      ⟨[⟨1, str "Ann", str "ann@ex.com", .null, 0⟩,
        ⟨2, str "Rob", str "rob@ex.com", .int 30, 7⟩], 3⟩ (by decide)
  obtain ⟨hserial, -⟩ :=
    hpd ⟨2, str "Rob", str "rob@ex.com", .int 30, 7⟩
      ⟨[⟨1, str "Ann", str "ann@ex.com", .null, 0⟩,
        ⟨2, str "Rob", str "rob@ex.com", .int 30, 7⟩], 3⟩ (by decide)
  exact ⟨hnext, hserial⟩

/-- Invariant of a fallback trace: the ids assigned by successful creates
strictly increase in assignment order, all stay below the current
`nextId`, every stored record carries an id that was assigned by some
create of the trace, and the store size balances the operation counts. -/
def TraceInv (r : RunResult) : Prop :=
  r.log.Pairwise (· < ·) ∧
  (∀ m ∈ r.log, m < r.state.nextId) ∧
  (∀ u ∈ r.state.users, u.id ∈ r.log) ∧
  r.state.users.length + r.deletes = r.creates

/-- Every operation preserves the trace invariant. -/
theorem runOp_inv {r : RunResult} (h : TraceInv r) (op : Op) :
    TraceInv (runOp r op) := by
  obtain ⟨hpw, hlt, hmem, hcount⟩ := h
  cases op with
  | create name email age now =>
    unfold runOp
    dsimp only
    rcases fallbackCreate_cases r.state name email age now with hc | ⟨msg, hc⟩
    · rw [hc]
      dsimp only
      refine ⟨?_, ?_, ?_, ?_⟩
      · rw [List.pairwise_append]
        refine ⟨hpw, List.pairwise_singleton .., ?_⟩
        intro m hm b hb
        rw [List.mem_singleton] at hb
        subst hb
        exact hlt m hm
      · intro m hm
        rw [List.mem_append] at hm
        rcases hm with hm | hm
        · exact Nat.lt_succ_of_lt (hlt m hm)
        · rw [List.mem_singleton] at hm
          subst hm
          exact Nat.lt_succ_self _
      · intro u hu
        rw [List.mem_append] at hu
        rcases hu with hu | hu
        · exact List.mem_append_left _ (hmem u hu)
        · rw [List.mem_singleton] at hu
          subst hu
          exact List.mem_append_right _ (List.mem_singleton.mpr rfl)
      · simp only [List.length_append, List.length_singleton]
        omega
    · rw [hc]
      exact ⟨hpw, hlt, hmem, hcount⟩
  | delete uid =>
    unfold runOp
    dsimp only
    rcases fallbackDelete_cases r.state uid with ⟨i, hidx, hlen, hdel⟩ | hdel
    · rw [hdel]
      dsimp only
      refine ⟨hpw, hlt, ?_, ?_⟩
      · intro u hu
        exact hmem u ((List.eraseIdx_sublist r.state.users i).subset hu)
      · dsimp only
        rw [List.length_eraseIdx, if_pos hlen]
        omega
    · rw [hdel]
      exact ⟨hpw, hlt, hmem, hcount⟩

/-- The invariant holds along any fold of operations. -/
theorem foldl_runOp_inv (ops : List Op) (r : RunResult) (h : TraceInv r) :
    TraceInv (ops.foldl runOp r) := by
  induction ops generalizing r with
  | nil => exact h
  | cons op ops ih => exact ih (runOp r op) (runOp_inv h op)

/-- Every trace from the freshly seeded fallback store satisfies the
invariant. -/
theorem run_inv (ops : List Op) : TraceInv (run ops) := by
  unfold run
  apply foldl_runOp_inv
  unfold TraceInv
  refine ⟨List.Pairwise.nil, ?_, ?_, rfl⟩
  · intro m hm
    cases hm
  · intro u hu
    cases hu

/-- C3: along any trace of creates and deletes against the fallback
backend, the ids assigned by successful creates are strictly increasing in
assignment order (hence pairwise distinct — no id, in particular no
deleted record's id, is ever assigned again; deletes never remove entries
from the assignment log), and every record in the store carries an id that
was assigned by a create of the trace. -/
theorem id_strictly_increasing_never_reused (ops : List Op) :
    (run ops).log.Pairwise (· < ·) ∧
    (run ops).log.Nodup ∧
    (∀ u ∈ (run ops).state.users, u.id ∈ (run ops).log) := by
  obtain ⟨hpw, -, hmem, -⟩ := run_inv ops
  exact ⟨hpw, hpw.imp Nat.ne_of_lt, hmem⟩

/-- C8: after any trace with N successful creates and M successful deletes
from the empty fallback store, the store holds exactly N − M records (and
M ≤ N); the list operation returns a permutation of the store sorted by
`created_at` descending — so exactly N − M users — and returns `[]` on an
empty store. -/
theorem list_length_and_order (ops : List Op) (st : FallbackState)
    (k : Nat) :
    (run ops).state.users.length + (run ops).deletes = (run ops).creates ∧
    (run ops).deletes ≤ (run ops).creates ∧
    (fallbackList (run ops).state).length =
      (run ops).creates - (run ops).deletes ∧
    List.Sorted createdDesc (fallbackList st) ∧
    (fallbackList st).Perm st.users ∧
    fallbackList ⟨[], k⟩ = [] := by
  obtain ⟨-, -, -, hcount⟩ := run_inv ops
  refine ⟨hcount, by omega, ?_, ?_, ?_, rfl⟩
  · unfold fallbackList
    rw [(List.perm_insertionSort createdDesc (run ops).state.users).length_eq]
    omega
  · exact List.sorted_insertionSort createdDesc st.users
  · exact List.perm_insertionSort createdDesc st.users

/-- Witness for C3 on a concrete trace — create, create, delete the first
record, create again: the assignment log is `[1, 2, 3]`, strictly
increasing, and the id of the last stored record was assigned by the
trace. -/
theorem id_strictly_increasing_never_reused_witness :
    (run [.create (some (str "Ann")) (some (str "a@b.c")) .undef 0,
          .create (some (str "Bob")) (some (str "b@c.d")) .undef 1,
          .delete 1,
          .create (some (str "Cid")) (some (str "c@d.e")) .undef 2]).log =
      [1, 2, 3] ∧
    (⟨3, str "Cid", str "c@d.e", .null, 2⟩ : User).id ∈
      (run [.create (some (str "Ann")) (some (str "a@b.c")) .undef 0,
            .create (some (str "Bob")) (some (str "b@c.d")) .undef 1,
            .delete 1,
            .create (some (str "Cid")) (some (str "c@d.e")) .undef 2]).log :=
  ⟨by decide,
   (id_strictly_increasing_never_reused
      [.create (some (str "Ann")) (some (str "a@b.c")) .undef 0,
       .create (some (str "Bob")) (some (str "b@c.d")) .undef 1,
       .delete 1,
       .create (some (str "Cid")) (some (str "c@d.e")) .undef 2]).2.2
     ⟨3, str "Cid", str "c@d.e", .null, 2⟩ (by decide)⟩
